import Mathlib

/-!
Shallow embedding of the Envoy fatal-error-handler registry
(`source/common/signal/fatal_error_handler.cc`).

The C++ code keeps a single atomic slot
`std::atomic<FailureFunctionList*> fatal_error_handlers` that is either
`nullptr` or an owned pointer to a `std::list<const FatalErrorHandlerInterface*>`.
We model the slot as `Option (List α)` where `α` stands for handler
pointers (compared by pointer equality, hence `DecidableEq α`), and each
operation as an explicit state transformer.  The crash-time entry point
`callFatalErrorHandlers(std::ostream&)` is modelled as returning, together
with the new slot value, the ordered list of capability calls it performs;
each call records the handler together with the output sink it was passed.

All claims here concern the quiescent (sequential) behaviour of the
operations, which is what the state-transformer embedding captures.
-/

namespace Envoy.FatalErrorHandler

/-- `FailureFunctionList` = `std::list<const FatalErrorHandlerInterface*>`:
an ordered sequence of handler references. -/
abbrev FailureFunctionList (α : Type) := List α

/-- The single shared slot `fatal_error_handlers`: `none` is `nullptr`,
`some list` is an owned pointer to a `FailureFunctionList`. -/
abbrev RegistryState (α : Type) := Option (FailureFunctionList α)

/-- `registerFatalErrorHandler` (flag-enabled branch): exchange the slot for
`nullptr`; if the obtained list is `nullptr` allocate a fresh empty list;
`push_back(&handler)`; store the list back into the slot. -/
def registerFatalErrorHandler (handler : α) (s : RegistryState α) :
    RegistryState α :=
  let list := s.getD []
  some (list ++ [handler])

/-- `removeFatalErrorHandler` (flag-enabled branch): exchange the slot for
`nullptr`; if the obtained list is `nullptr` return (silent no-op);
otherwise `list->remove(&handler)` — `std::list::remove` erases every
element equal to the value, preserving the order of the rest, modelled by
`List.filter` — and then, if the list became empty, delete it (leaving the
slot `nullptr` from the exchange), else store it back. -/
def removeFatalErrorHandler [DecidableEq α] (handler : α)
    (s : RegistryState α) : RegistryState α :=
  match s with
  | none => none
  | some list =>
    let list := list.filter (fun x => x ≠ handler)
    if list = [] then none else some list

/-- `callFatalErrorHandlers(os)`: exchange the slot for `nullptr`; if a list
was obtained, call `handler->onFatalError(os)` for each handler in order and
then delete the list.  The first component is the ordered sequence of
capability calls performed, each recording the handler and the sink it was
passed; the second component is the slot afterwards. -/
def callFatalErrorHandlers (os : σ) (s : RegistryState α) :
    List (α × σ) × RegistryState α :=
  match s with
  | none => ([], none)
  | some list => (list.map (fun h => (h, os)), none)

/-- `registerFatalErrorHandler` when `ENVOY_OBJECT_TRACE_ON_DUMP` is not
defined: `UNREFERENCED_PARAMETER(handler)`, no state change. -/
def registerFatalErrorHandlerDisabled (handler : α) (s : RegistryState α) :
    RegistryState α := s

/-- `removeFatalErrorHandler` when `ENVOY_OBJECT_TRACE_ON_DUMP` is not
defined: `UNREFERENCED_PARAMETER(handler)`, no state change. -/
def removeFatalErrorHandlerDisabled (handler : α) (s : RegistryState α) :
    RegistryState α := s

/-- The handler sequence currently held by the slot (`[]` when absent). -/
def handlersOf (s : RegistryState α) : List α := s.getD []

/-- An administrative operation, used to describe arbitrary sequences of
register/unregister calls. -/
inductive AdminOp (α : Type) where
  | reg (handler : α)
  | rem (handler : α)

/-- Run one administrative operation in the flag-disabled build. -/
def applyDisabled (s : RegistryState α) : AdminOp α → RegistryState α
  | .reg h => registerFatalErrorHandlerDisabled h s
  | .rem h => removeFatalErrorHandlerDisabled h s

/- ## Helper lemmas -/

theorem handlersOf_register (handler : α) (s : RegistryState α) :
    handlersOf (registerFatalErrorHandler handler s)
      = handlersOf s ++ [handler] := by
  cases s <;> rfl

theorem call_fst (os : σ) (s : RegistryState α) :
    (callFatalErrorHandlers os s).1
      = (handlersOf s).map (fun h => (h, os)) := by
  cases s <;> rfl

theorem call_snd (os : σ) (s : RegistryState α) :
    (callFatalErrorHandlers os s).2 = none := by
  cases s <;> rfl

theorem handlersOf_foldl_register (hs : List α) (s : RegistryState α) :
    handlersOf (hs.foldl (fun t h => registerFatalErrorHandler h t) s)
      = handlersOf s ++ hs := by
  induction hs generalizing s with
  | nil => simp
  | cons h t ih =>
    simp only [List.foldl_cons, ih, handlersOf_register, List.append_assoc,
      List.cons_append, List.nil_append]

theorem call_handlers (os : σ) (s : RegistryState α) :
    ((callFatalErrorHandlers os s).1).map Prod.fst = handlersOf s := by
  cases s with
  | none => rfl
  | some list =>
    simp only [callFatalErrorHandlers, handlersOf, Option.getD_some,
      List.map_map]
    exact List.map_id list

theorem handlersOf_remove [DecidableEq α] (handler : α)
    (s : RegistryState α) :
    handlersOf (removeFatalErrorHandler handler s)
      = (handlersOf s).filter (fun x => x ≠ handler) := by
  cases s with
  | none => rfl
  | some list =>
    simp only [removeFatalErrorHandler, handlersOf]
    split
    · rename_i h
      exact h.symm
    · rfl

/- ## Claims -/

/-- C1: starting from the empty registry, a sequence of register calls with
distinct handlers h1..hn followed by a single invocation calls each
handler's capability method exactly once, in exactly registration order,
passing it the given output sink. -/
theorem register_sequence_invoked_in_order [DecidableEq α] [DecidableEq σ]
    (hs : List α) (os : σ) (hnd : hs.Nodup) :
    (callFatalErrorHandlers os
        (hs.foldl (fun t h => registerFatalErrorHandler h t) none)).1
      = hs.map (fun h => (h, os))
    ∧ ∀ h ∈ hs,
      (((callFatalErrorHandlers os
          (hs.foldl (fun t h => registerFatalErrorHandler h t)
            none)).1).map Prod.fst).count h = 1 := by
  have hcalls : (callFatalErrorHandlers os
      (hs.foldl (fun t h => registerFatalErrorHandler h t) none)).1
      = hs.map (fun h => (h, os)) := by
    rw [call_fst, handlersOf_foldl_register]
    rfl
  refine ⟨hcalls, fun h hm => ?_⟩
  rw [call_handlers, handlersOf_foldl_register]
  simpa [handlersOf] using List.count_eq_one_of_mem hnd hm

/-- Witness for C1 at handlers [1, 2, 3] and sink 0. -/
theorem register_sequence_invoked_in_order_witness :
    (callFatalErrorHandlers (0 : Nat)
        (([1, 2, 3] : List Nat).foldl
          (fun t h => registerFatalErrorHandler h t) none)).1
      = ([1, 2, 3] : List Nat).map (fun h => (h, 0))
    ∧ ∀ h ∈ ([1, 2, 3] : List Nat),
      (((callFatalErrorHandlers (0 : Nat)
          (([1, 2, 3] : List Nat).foldl
            (fun t h => registerFatalErrorHandler h t)
              none)).1).map Prod.fst).count h = 1 :=
  register_sequence_invoked_in_order [1, 2, 3] 0 (by decide)

/-- C2: invocation is one-shot and destructive — from any state, after one
invocation completes and with no registration in between, a second
invocation calls zero handlers. -/
theorem second_invocation_calls_nothing (os1 os2 : σ) (s : RegistryState α) :
    (callFatalErrorHandlers os2 (callFatalErrorHandlers os1 s).2).1 = [] := by
  rw [call_snd]
  rfl

/-- C3 counterexample: register handler 0 twice, unregister it once; the
claim says a subsequent invocation calls it exactly once, but
`std::list::remove` erased both copies, so the invocation performs no calls
at all. -/
theorem double_register_single_remove_counterexample :
    (callFatalErrorHandlers (0 : Nat)
        (removeFatalErrorHandler 0
          (registerFatalErrorHandler 0
            (registerFatalErrorHandler 0 (none : RegistryState Nat))))).1
      = []
    ∧ ((callFatalErrorHandlers (0 : Nat)
        (removeFatalErrorHandler 0
          (registerFatalErrorHandler 0
            (registerFatalErrorHandler 0
              (none : RegistryState Nat))))).1).count (0, 0) ≠ 1 := by
  decide

/-- C3 amended: registering a handler twice (starting from a state not
containing it) makes a subsequent invocation call it exactly twice; but
unregistering it once removes BOTH instances, so a subsequent invocation
calls it zero times. -/
theorem double_register_then_remove_amended [DecidableEq α] [DecidableEq σ]
    (handler : α) (os : σ) (s : RegistryState α)
    (hnotin : handler ∉ handlersOf s) :
    (((callFatalErrorHandlers os
        (registerFatalErrorHandler handler
          (registerFatalErrorHandler handler s))).1).map Prod.fst).count
      handler = 2
    ∧ (((callFatalErrorHandlers os
        (removeFatalErrorHandler handler
          (registerFatalErrorHandler handler
            (registerFatalErrorHandler handler s)))).1).map Prod.fst).count
      handler = 0 := by
  constructor
  · rw [call_handlers, handlersOf_register, handlersOf_register,
      List.count_append, List.count_append,
      List.count_eq_zero_of_not_mem hnotin]
    simp
  · rw [call_handlers, handlersOf_remove, List.count_eq_zero]
    intro hmem
    have h2 := (List.mem_filter.mp hmem).2
    simp at h2

/-- Witness for the amended C3 at handler 0, sink 0, empty start state. -/
theorem double_register_then_remove_witness :
    (((callFatalErrorHandlers (0 : Nat)
        (registerFatalErrorHandler 0
          (registerFatalErrorHandler 0
            (none : RegistryState Nat)))).1).map Prod.fst).count 0 = 2
    ∧ (((callFatalErrorHandlers (0 : Nat)
        (removeFatalErrorHandler 0
          (registerFatalErrorHandler 0
            (registerFatalErrorHandler 0
              (none : RegistryState Nat))))).1).map Prod.fst).count 0 = 0 :=
  double_register_then_remove_amended 0 0 none (by decide)

/-- C4: unregister removes all entries equal to the handler from the
sequence, leaving the other entries in their original relative order —
exactly `List.filter`. -/
theorem remove_filters_all_equal [DecidableEq α] (handler : α)
    (s : RegistryState α) :
    handlersOf (removeFatalErrorHandler handler s)
      = (handlersOf s).filter (fun x => x ≠ handler) :=
  handlersOf_remove handler s

/-- C5: unregister on an absent registry slot is a silent no-op — it
returns `none` (slot still empty) and is a total function (no fault). -/
theorem remove_on_absent_is_noop [DecidableEq α] (handler : α) :
    removeFatalErrorHandler handler (none : RegistryState α) = none := rfl

/-- C6: register appends the handler at the end of the handler sequence,
allocating the list first when none exists, so register on the empty
registry yields the one-element sequence. -/
theorem register_appends (handler : α) (s : RegistryState α) :
    registerFatalErrorHandler handler s = some (handlersOf s ++ [handler])
    ∧ registerFatalErrorHandler handler (none : RegistryState α)
      = some [handler] := by
  refine ⟨?_, rfl⟩
  cases s <;> rfl

/-- C7: every operation leaves the slot either empty or holding a
non-empty list (never a pointer to an empty list); in particular removing
the last remaining handler frees the list and leaves the slot empty. -/
theorem ops_preserve_nonempty_invariant [DecidableEq α] (handler : α)
    (os : σ) (s : RegistryState α) :
    registerFatalErrorHandler handler s ≠ some []
    ∧ removeFatalErrorHandler handler s ≠ some []
    ∧ (callFatalErrorHandlers os s).2 ≠ some []
    ∧ removeFatalErrorHandler handler
        (some [handler] : RegistryState α) = none := by
  refine ⟨?_, ?_, ?_, ?_⟩
  · cases s <;> simp [registerFatalErrorHandler]
  · cases s with
    | none => simp [removeFatalErrorHandler]
    | some list =>
      simp only [removeFatalErrorHandler]
      split
      · simp
      · simp_all
  · rw [call_snd]
    simp
  · simp [removeFatalErrorHandler]

/-- C8: with the build-time flag disabled, register and unregister are
no-ops for every handler and state, and an invocation after any sequence
of disabled administrative operations (from the initial empty registry)
finds no list and calls zero handlers. -/
theorem disabled_build_is_inert (handler : α) (s : RegistryState α)
    (os : σ) (ops : List (AdminOp α)) :
    registerFatalErrorHandlerDisabled handler s = s
    ∧ removeFatalErrorHandlerDisabled handler s = s
    ∧ (callFatalErrorHandlers os
        (ops.foldl applyDisabled (none : RegistryState α))).1 = [] := by
  refine ⟨rfl, rfl, ?_⟩
  have hfold : ops.foldl applyDisabled (none : RegistryState α) = none := by
    induction ops with
    | nil => rfl
    | cons op t ih => cases op <;> exact ih
  rw [hfold]
  rfl

/-- C9: a completed invocation does not permanently disable the registry —
registering a handler afterwards allocates a fresh one-element list, and a
second invocation calls that handler exactly once, as the singleton call
sequence shows. -/
theorem register_after_invocation_reenables (handler : α) (os os2 : σ)
    (s : RegistryState α) :
    registerFatalErrorHandler handler (callFatalErrorHandlers os s).2
      = some [handler]
    ∧ (callFatalErrorHandlers os2
        (registerFatalErrorHandler handler
          (callFatalErrorHandlers os s).2)).1 = [(handler, os2)] := by
  rw [call_snd]
  exact ⟨rfl, rfl⟩

/-- C10: on a well-formed state whose sequence does not contain the
handler, register-then-unregister restores exactly the original state, and
unregister alone leaves the state unchanged. -/
theorem register_remove_roundtrip [DecidableEq α] (handler : α)
    (s : RegistryState α) (hwf : s ≠ some [])
    (hnotin : handler ∉ handlersOf s) :
    removeFatalErrorHandler handler (registerFatalErrorHandler handler s) = s
    ∧ removeFatalErrorHandler handler s = s := by
  cases s with
  | none =>
    refine ⟨?_, rfl⟩
    simp [registerFatalErrorHandler, removeFatalErrorHandler]
  | some l =>
    have hl : l ≠ [] := fun hcon => hwf (by rw [hcon])
    have hfl : l.filter (fun x => x ≠ handler) = l := by
      refine List.filter_eq_self.mpr fun a ha => ?_
      simp only [ne_eq, decide_eq_true_eq]
      intro hcon
      exact hnotin (hcon ▸ ha)
    have hsingle : ([handler] : List α).filter (fun x => x ≠ handler) = [] := by
      simp
    have hfilter2 : (l ++ [handler]).filter (fun x => x ≠ handler) = l := by
      rw [List.filter_append, hfl, hsingle, List.append_nil]
    constructor
    · show (if (l ++ [handler]).filter (fun x => x ≠ handler) = [] then none
          else some ((l ++ [handler]).filter (fun x => x ≠ handler)))
        = some l
      rw [hfilter2]
      exact if_neg hl
    · show (if l.filter (fun x => x ≠ handler) = [] then none
          else some (l.filter (fun x => x ≠ handler))) = some l
      rw [hfl]
      exact if_neg hl

/-- Witness for C10 at handler 0 and state some [1]. -/
theorem register_remove_roundtrip_witness :
    removeFatalErrorHandler 0
        (registerFatalErrorHandler 0 (some [1] : RegistryState Nat))
      = some [1]
    ∧ removeFatalErrorHandler 0 (some [1] : RegistryState Nat) = some [1] :=
  register_remove_roundtrip 0 (some [1]) (by decide) (by decide)

end Envoy.FatalErrorHandler
